import Mathlib

/-!
Verification of the EBRAINS RichEndpoint orchestrator
(`python/orchestrator/orchestrator.py`).

The orchestrator is a sequential control process whose only side effects
are interactions with external collaborators: the service registry, the
channel communicator (queues), the health/state keeper and the OS signal
layer.  We model each method of the `Orchestrator` class as a pure
function of an environment that fixes the results those collaborators
return, and we record every external interaction in an ordered trace of
`Action`s.  Logging and the orchestrator's private bookkeeping fields
(`__step_sizes`, `__responses_received`) are internal to the process and
are not traced.  Python exceptions that the source does not catch
(`ValueError` from `min([])`, `KeyError` from the dispatch-dictionary
lookup, `IndexError` from indexing an empty component list) are modelled
by the `Res.exn` outcome.
-/

namespace Orchestrator

/-- Modelled from the spec: lifecycle states (`STATES` in
`python/orchestrator/state_enums.py`, which is not among the sources);
the spec names READY, SYNCHRONIZING, RUNNING and TERMINATED, and the
main loop's documentation additionally mentions an ERROR global state. -/
inductive STATES
  | READY
  | SYNCHRONIZING
  | RUNNING
  | TERMINATED
  | ERROR
deriving DecidableEq

/-- Modelled from the spec: the binary `Response` outcome
(`python/Application_Companion/common_enums.py`, not among the sources). -/
inductive Response
  | OK
  | ERROR
deriving DecidableEq

/-- Modelled from the spec: out-of-band events
(`python/Application_Companion/common_enums.py`, not among the sources). -/
inductive EVENT
  | FATAL
  | STATE_UPDATE_FATAL
deriving DecidableEq

/-- Modelled from the spec: the steering commands
(`python/Application_Companion/common_enums.py`, not among the sources). -/
inductive SteeringCommands
  | INIT
  | START
  | END
deriving DecidableEq

/-- Message payloads travelling on the queues: events, plain responses,
step-size records `{pid, min_delay}` (the float `min_delay` is modelled
as a rational), and steering commands. -/
inductive Msg
  | ev (e : EVENT)
  | resp (r : Response)
  | record (pid : Nat) (min_delay : ℚ)
  | cmd (c : SteeringCommands)
deriving DecidableEq

/-- External interactions of the orchestrator, in program order:
reads/updates through the health keeper and the registry, channel
traffic, signal raising, and monitor lifecycle calls. -/
inductive Action
  | readGlobal
  | updateLocal (s : STATES)
  | send (m : Msg)
  | recv
  | finalizeMonitoring
  | recomputeGlobal
  | register
  | raiseSigterm
  | setRegisteredFlag
  | findById
  | findAllByCategory
  | startHealthMonitoring
  | startAlarmMonitoring
  | recvCommand
deriving DecidableEq

/-- Outcome of a modelled Python call: a returned value, or an uncaught
exception. -/
inductive Res (α : Type)
  | ok (a : α)
  | exn
deriving DecidableEq

/-- What `communicator.receive` on the Command-and-Control out-queue
yields: a list of response messages, or `Response.ERROR` (the value
`__receive_responses` returns when the receive raises, and also the
error value the communicator itself may return). -/
inductive RecvOutcome
  | msgs (rs : List Msg)
  | err
deriving DecidableEq

/-- Results the external collaborators return during one command
execution: the current aggregated global state, the registry's answer to
`update_state`, the communicator's answer to `send`, the outcome of the
response receive, and the health keeper's answer to
`update_global_state`. -/
structure Env where
  globalState : STATES
  updateLocalState : STATES → Response
  sendResult : Msg → Response
  recvResult : RecvOutcome
  updateGlobalStateResult : Response

/-- `sub['min_delay']` for one element of the response list: only a
step-size record has the key; on any other payload Python raises
(`TypeError`/`KeyError`). -/
def getMinDelay : Msg → Res ℚ
  | .record _ d => .ok d
  | _ => .exn

/-- The list comprehension `[sub['min_delay'] for sub in ...]`:
left-to-right extraction, raising at the first unsuitable element. -/
def extractDelays : List Msg → Res (List ℚ)
  | [] => .ok []
  | m :: ms =>
    match getMinDelay m, extractDelays ms with
    | .ok d, .ok ds => .ok (d :: ds)
    | _, _ => .exn

/-- `__find_minimum_step_size`: extract all `min_delay` values and take
Python's `min` of the list; `min([])` raises `ValueError`, modelled by
`Res.exn` (`List.min?` returns `none` exactly on the empty list). -/
def findMinimumStepSize (l : List Msg) : Res ℚ :=
  match extractDelays l with
  | .exn => .exn
  | .ok ds =>
    match ds.min? with
    | none => .exn
    | some m => .ok m

/-- The three possible returns of `__process_responses`:
`Response.ERROR`, a minimum step size (a float), or Python's `None`
(the return value of `list.append`). -/
inductive ProcResult
  | err
  | minStep (q : ℚ)
  | noneVal
deriving DecidableEq

/-- `__process_responses`: if `EVENT.STATE_UPDATE_FATAL` occurs in the
received responses, send that event to the C&C service, finalize
monitoring and return `Response.ERROR`; otherwise, on INIT, reduce the
responses to the minimum step size; otherwise append the responses to
the (untraced, internal) `__responses_received` list and return
`None`. -/
def processResponses (rs : List Msg) (c : SteeringCommands) :
    Res ProcResult × List Action :=
  if Msg.ev .STATE_UPDATE_FATAL ∈ rs then
    (.ok .err, [.send (.ev .STATE_UPDATE_FATAL), .finalizeMonitoring])
  else if c = .INIT then
    match findMinimumStepSize rs with
    | .exn => (.exn, [])
    | .ok m => (.ok (.minStep m), [])
  else (.ok .noneVal, [])

/-- `__execute_steering_command`: send the command on the C&C in-queue
(a failed send returns ERROR without receiving); receive the responses
(a failed receive returns ERROR); process the responses (ERROR is
propagated); otherwise return OK. -/
def executeSteeringCommand (e : Env) (c : SteeringCommands) :
    Res Response × List Action :=
  if e.sendResult (.cmd c) = .ERROR then
    (.ok .ERROR, [.send (.cmd c)])
  else
    match e.recvResult with
    | .err => (.ok .ERROR, [.send (.cmd c), .recv])
    | .msgs rs =>
      match processResponses rs c with
      | (.exn, t) => (.exn, .send (.cmd c) :: .recv :: t)
      | (.ok pr, t) =>
        if pr = .err then (.ok .ERROR, .send (.cmd c) :: .recv :: t)
        else (.ok .OK, .send (.cmd c) :: .recv :: t)

/-- `__execute_if_validated`: (i) read the current global state and
reject unless it equals `v`; (ii) commit the orchestrator's local state
to `n` in the registry; (iii) broadcast the command and process the
responses; (iv) trigger the global-state recomputation.  Any ERROR
short-circuits the remaining steps. -/
def executeIfValidated (e : Env) (c : SteeringCommands) (v n : STATES) :
    Res Response × List Action :=
  if e.globalState ≠ v then (.ok .ERROR, [.readGlobal])
  else if e.updateLocalState n = .ERROR then
    (.ok .ERROR, [.readGlobal, .updateLocal n])
  else
    match executeSteeringCommand e c with
    | (.exn, t) => (.exn, .readGlobal :: .updateLocal n :: t)
    | (.ok .ERROR, t) => (.ok .ERROR, .readGlobal :: .updateLocal n :: t)
    | (.ok .OK, t) =>
      if e.updateGlobalStateResult = .ERROR then
        (.ok .ERROR, .readGlobal :: .updateLocal n :: (t ++ [.recomputeGlobal]))
      else
        (.ok .OK, .readGlobal :: .updateLocal n :: (t ++ [.recomputeGlobal]))

/-- `__execute_init_command`. -/
def executeInitCommand (e : Env) : Res Response × List Action :=
  executeIfValidated e .INIT .READY .SYNCHRONIZING

/-- `__execute_start_command`. -/
def executeStartCommand (e : Env) : Res Response × List Action :=
  executeIfValidated e .START .SYNCHRONIZING .RUNNING

/-- `__execute_end_command`. -/
def executeEndCommand (e : Env) : Res Response × List Action :=
  executeIfValidated e .END .RUNNING .TERMINATED

/-- The `valid_state` each command requires (the fixed arguments of the
three `__execute_*_command` wrappers). -/
def valid_state : SteeringCommands → STATES
  | .INIT => .READY
  | .START => .SYNCHRONIZING
  | .END => .RUNNING

/-- The `new_state` each command commits (the fixed arguments of the
three `__execute_*_command` wrappers). -/
def new_state : SteeringCommands → STATES
  | .INIT => .SYNCHRONIZING
  | .START => .RUNNING
  | .END => .TERMINATED

/-- Executing one steering command through its wrapper. -/
def executeCommand (e : Env) : SteeringCommands → Res Response × List Action
  | .INIT => executeInitCommand e
  | .START => executeStartCommand e
  | .END => executeEndCommand e

/-- `__handle_fatal_event`: log and return ERROR; no external
interaction. -/
def handleFatalEvent : Res Response × List Action := (.ok .ERROR, [])

/-- `__terminate_with_error`: send `EVENT.FATAL` to the C&C service,
finalize monitoring, return ERROR. -/
def terminateWithError : Response × List Action :=
  (.ERROR, [.send (.ev .FATAL), .finalizeMonitoring])

/-- The `command_execution_choices` dictionary lookup: the four keyed
entries, `none` (Python `KeyError`) for every other inbound message. -/
def dispatch (e : Env) : Msg → Option (Res Response × List Action)
  | .ev .FATAL => some handleFatalEvent
  | .cmd .INIT => some (executeInitCommand e)
  | .cmd .START => some (executeStartCommand e)
  | .cmd .END => some (executeEndCommand e)
  | _ => none

/-- Whether an inbound message is in the dispatch table's four-value
vocabulary {`EVENT.FATAL`, INIT, START, END}. -/
def handledMsg : Msg → Bool
  | .ev .FATAL => true
  | .cmd _ => true
  | _ => false

/-- How a run of the main loop can end: a returned `Response`, blocked
forever on the next receive (no more inbound messages in the modelled
schedule), an uncaught `KeyError` from the dispatch lookup, or an
uncaught exception raised inside a handler. -/
inductive LoopOutcome
  | returned (r : Response)
  | blocked
  | keyError
  | raised
deriving DecidableEq

/-- `__command_control_and_coordinate`: each list element is one loop
iteration's received inbound message together with the collaborator
results in force during that iteration.  On handler ERROR the loop
returns `__terminate_with_error()`; after a non-ERROR execution of END
it returns OK; otherwise it continues with the next message.  (The
loop's debug logging also reads the global state; logging is not
traced.) -/
def loop : List (Env × Msg) → LoopOutcome × List Action
  | [] => (.blocked, [])
  | (e, m) :: rest =>
    match dispatch e m with
    | none => (.keyError, [.recvCommand])
    | some (.exn, t) => (.raised, .recvCommand :: t)
    | some (.ok r, t) =>
      if r = .ERROR then
        (.returned terminateWithError.1, .recvCommand :: (t ++ terminateWithError.2))
      else if m = .cmd .END then (.returned .OK, .recvCommand :: t)
      else ((loop rest).1, .recvCommand :: (t ++ (loop rest).2))

/-- Results the external collaborators return during bootstrap: the
registry's answer to `register`, the number of registered
Command-and-Control entries, and the health keeper's answer to the
bootstrap `update_global_state` call. -/
structure SetupEnv where
  registerResult : Response
  ccEntryCount : Nat
  updateGlobalStateResult : Response

/-- `__register_with_registry`: on registry ERROR raise SIGTERM against
the own process and return ERROR; on OK set the registered flag and
fetch the own registry entry by process id. -/
def registerWithRegistry (se : SetupEnv) : Response × List Action :=
  if se.registerResult = .ERROR then (.ERROR, [.register, .raiseSigterm])
  else (.OK, [.register, .setRegisteredFlag, .findById])

/-- `__set_up_runtime`: register (ERROR aborts); fetch the C&C entries
by category and index entry `[0]` (an `IndexError`, modelled as `exn`,
if none is registered); trigger one global-state recomputation whose
result is not checked; start the two background monitors; return OK. -/
def setUpRuntime (se : SetupEnv) : Res Response × List Action :=
  match registerWithRegistry se with
  | (.ERROR, t) => (.ok .ERROR, t)
  | (.OK, t) =>
    match se.ccEntryCount with
    | 0 => (.exn, t ++ [.findAllByCategory])
    | _ + 1 =>
      (.ok .OK, t ++ [.findAllByCategory, .recomputeGlobal,
                      .startHealthMonitoring, .startAlarmMonitoring])

/-- `run`: set up the runtime (ERROR aborts before the loop), then run
the command loop. -/
def run (se : SetupEnv) (incoming : List (Env × Msg)) :
    LoopOutcome × List Action :=
  match setUpRuntime se with
  | (.exn, t) => (.raised, t)
  | (.ok .ERROR, t) => (.returned .ERROR, t)
  | (.ok .OK, t) => ((loop incoming).1, t ++ (loop incoming).2)

/-- Step-size records as messages, from a list of `(pid, min_delay)`
pairs. -/
def stepRecords (pds : List (Nat × ℚ)) : List Msg :=
  pds.map fun p => Msg.record p.1 p.2

/-- A benign environment whose global state is RUNNING. -/
def envRunning : Env :=
  ⟨.RUNNING, fun _ => .OK, fun _ => .OK, .msgs [.resp .OK], .OK⟩

/-- A benign environment whose global state is READY and whose received
responses are two step-size records. -/
def envReady : Env :=
  ⟨.READY, fun _ => .OK, fun _ => .OK, .msgs [.record 1 3, .record 2 2], .OK⟩

/-- An environment whose received responses contain
`STATE_UPDATE_FATAL`. -/
def envFatalResp : Env :=
  ⟨.READY, fun _ => .OK, fun _ => .OK, .msgs [.ev .STATE_UPDATE_FATAL], .OK⟩

/-- An environment whose channel send fails. -/
def envSendFail : Env :=
  ⟨.READY, fun _ => .OK, fun _ => .ERROR, .msgs [.resp .OK], .OK⟩

/-- A bootstrap environment whose registry registration fails. -/
def seRegFail : SetupEnv := ⟨.ERROR, 1, .OK⟩

/-- A bootstrap environment in which registration succeeds but the
bootstrap global-state recomputation reports ERROR. -/
def seRecomputeFail : SetupEnv := ⟨.OK, 1, .ERROR⟩

/-! ### Shared helper lemmas -/

theorem executeCommand_eq (e : Env) (c : SteeringCommands) :
    executeCommand e c = executeIfValidated e c (valid_state c) (new_state c) := by
  cases c <;> rfl

theorem foldl_min_le_init (x : ℚ) (xs : List ℚ) : xs.foldl min x ≤ x := by
  induction xs generalizing x with
  | nil => exact le_refl x
  | cons y ys ih => exact le_trans (ih (min x y)) (min_le_left x y)

theorem foldl_min_le_mem (x : ℚ) (xs : List ℚ) :
    ∀ d ∈ xs, xs.foldl min x ≤ d := by
  induction xs generalizing x with
  | nil => intro d hd; cases hd
  | cons y ys ih =>
    intro d hd
    rcases List.mem_cons.mp hd with h | h
    · subst h
      exact le_trans (foldl_min_le_init (min x d) ys) (min_le_right x d)
    · exact ih (min x y) d h

theorem foldl_min_mem (x : ℚ) (xs : List ℚ) :
    xs.foldl min x = x ∨ xs.foldl min x ∈ xs := by
  induction xs generalizing x with
  | nil => exact Or.inl rfl
  | cons y ys ih =>
    rcases ih (min x y) with h | h
    · rcases min_choice x y with hm | hm
      · exact Or.inl (by rw [List.foldl_cons, h, hm])
      · refine Or.inr ?_
        rw [List.foldl_cons, h, hm]
        exact List.mem_cons_self y ys
    · exact Or.inr (List.mem_cons_of_mem y h)

theorem min?_spec {l : List ℚ} {m : ℚ} (h : l.min? = some m) :
    m ∈ l ∧ ∀ d ∈ l, m ≤ d := by
  cases l with
  | nil => cases h
  | cons x xs =>
    have hm : xs.foldl min x = m := by
      have hsome : some (xs.foldl min x) = some m := h
      exact Option.some.inj hsome
    subst hm
    constructor
    · rcases foldl_min_mem x xs with h1 | h1
      · rw [h1]; exact List.mem_cons_self x xs
      · exact List.mem_cons_of_mem x h1
    · intro d hd
      rcases List.mem_cons.mp hd with rfl | h1
      · exact foldl_min_le_init _ xs
      · exact foldl_min_le_mem x xs d h1

theorem extractDelays_stepRecords (pds : List (Nat × ℚ)) :
    extractDelays (stepRecords pds) = .ok (pds.map Prod.snd) := by
  induction pds with
  | nil => rfl
  | cons p ps ih =>
    simp only [stepRecords, List.map_cons] at ih ⊢
    simp only [extractDelays, getMinDelay, ih]

theorem stepRecords_no_fatal (pds : List (Nat × ℚ)) :
    Msg.ev .STATE_UPDATE_FATAL ∉ stepRecords pds := by
  intro h
  rcases List.mem_map.mp h with ⟨p, _, hp⟩
  cases hp

/-- The trace of `__process_responses` is either empty or exactly the
state-update-fatal reaction. -/
theorem processResponses_trace_cases (rs : List Msg) (c : SteeringCommands) :
    (processResponses rs c).2 = [] ∨
      (processResponses rs c).2 =
        [.send (.ev .STATE_UPDATE_FATAL), .finalizeMonitoring] := by
  by_cases hm : Msg.ev .STATE_UPDATE_FATAL ∈ rs
  · right; simp [processResponses, hm]
  · by_cases hc : c = .INIT
    · cases hf : findMinimumStepSize rs <;> left <;> simp [processResponses, hm, hc, hf]
    · left; simp [processResponses, hm, hc]

theorem processResponses_ok_not_err {rs : List Msg} {c : SteeringCommands}
    {pr : ProcResult} {t : List Action}
    (hp : processResponses rs c = (.ok pr, t)) (hne : pr ≠ .err) : t = [] := by
  by_cases hm : Msg.ev .STATE_UPDATE_FATAL ∈ rs
  · rw [processResponses, if_pos hm] at hp
    have : pr = .err := by
      have := congrArg Prod.fst hp
      simp at this
      exact this.symm
    exact absurd this hne
  · by_cases hc : c = .INIT
    · subst hc
      cases hf : findMinimumStepSize rs with
      | exn =>
        rw [processResponses, if_neg hm, if_pos rfl, hf] at hp
        cases hp
      | ok m =>
        rw [processResponses, if_neg hm, if_pos rfl, hf] at hp
        have := congrArg Prod.snd hp
        simpa using this.symm
    · rw [processResponses, if_neg hm, if_neg hc] at hp
      have := congrArg Prod.snd hp
      simpa using this.symm

/-! Case characterizations of `__execute_steering_command`. -/

theorem ess_send_fail {e : Env} {c : SteeringCommands}
    (hs : e.sendResult (.cmd c) = .ERROR) :
    executeSteeringCommand e c = (.ok .ERROR, [.send (.cmd c)]) := by
  simp [executeSteeringCommand, hs]

theorem ess_recv_err {e : Env} {c : SteeringCommands}
    (hs : e.sendResult (.cmd c) ≠ .ERROR) (hr : e.recvResult = .err) :
    executeSteeringCommand e c = (.ok .ERROR, [.send (.cmd c), .recv]) := by
  simp [executeSteeringCommand, hs, hr]

theorem ess_proc_exn {e : Env} {c : SteeringCommands} {rs : List Msg}
    {t : List Action}
    (hs : e.sendResult (.cmd c) ≠ .ERROR) (hr : e.recvResult = .msgs rs)
    (hp : processResponses rs c = (.exn, t)) :
    executeSteeringCommand e c = (.exn, .send (.cmd c) :: .recv :: t) := by
  simp [executeSteeringCommand, hs, hr, hp]

theorem ess_proc_err {e : Env} {c : SteeringCommands} {rs : List Msg}
    {pr : ProcResult} {t : List Action}
    (hs : e.sendResult (.cmd c) ≠ .ERROR) (hr : e.recvResult = .msgs rs)
    (hp : processResponses rs c = (.ok pr, t)) (he : pr = .err) :
    executeSteeringCommand e c = (.ok .ERROR, .send (.cmd c) :: .recv :: t) := by
  simp [executeSteeringCommand, hs, hr, hp, he]

theorem ess_proc_ok {e : Env} {c : SteeringCommands} {rs : List Msg}
    {pr : ProcResult} {t : List Action}
    (hs : e.sendResult (.cmd c) ≠ .ERROR) (hr : e.recvResult = .msgs rs)
    (hp : processResponses rs c = (.ok pr, t)) (he : pr ≠ .err) :
    executeSteeringCommand e c = (.ok .OK, .send (.cmd c) :: .recv :: t) := by
  simp [executeSteeringCommand, hs, hr, hp, he]

theorem recomputeGlobal_not_mem_execSteer (e : Env) (c : SteeringCommands) :
    Action.recomputeGlobal ∉ (executeSteeringCommand e c).2 := by
  by_cases hs : e.sendResult (.cmd c) = .ERROR
  · rw [ess_send_fail hs]; simp
  · cases hr : e.recvResult with
    | err => rw [ess_recv_err hs hr]; simp
    | msgs rs =>
      have ht := processResponses_trace_cases rs c
      rcases hp : processResponses rs c with ⟨pr, t⟩
      rw [hp] at ht
      simp only at ht
      have htt : Action.recomputeGlobal ∉ t := by
        rcases ht with h | h <;> subst h <;> simp
      cases pr with
      | exn => rw [ess_proc_exn hs hr hp]; simpa using htt
      | ok prr =>
        by_cases he : prr = .err
        · rw [ess_proc_err hs hr hp he]; simpa using htt
        · rw [ess_proc_ok hs hr hp he]; simpa using htt

theorem executeSteeringCommand_ok_trace (e : Env) (c : SteeringCommands)
    (h : (executeSteeringCommand e c).1 = .ok .OK) :
    (executeSteeringCommand e c).2 = [.send (.cmd c), .recv] := by
  by_cases hs : e.sendResult (.cmd c) = .ERROR
  · rw [ess_send_fail hs] at h; cases h
  · cases hr : e.recvResult with
    | err => rw [ess_recv_err hs hr] at h; cases h
    | msgs rs =>
      rcases hp : processResponses rs c with ⟨pr, t⟩
      cases pr with
      | exn => rw [ess_proc_exn hs hr hp] at h; cases h
      | ok prr =>
        by_cases he : prr = .err
        · rw [ess_proc_err hs hr hp he] at h; cases h
        · rw [ess_proc_ok hs hr hp he]
          have : t = [] := processResponses_ok_not_err hp he
          rw [this]

/-! ### Case characterizations of `__execute_if_validated` -/

theorem eiv_precondition_fail {e : Env} (c : SteeringCommands) {v : STATES}
    (n : STATES) (hg : e.globalState ≠ v) :
    executeIfValidated e c v n = (.ok .ERROR, [.readGlobal]) := by
  rw [executeIfValidated, if_pos hg]

theorem eiv_update_fail {e : Env} (c : SteeringCommands) {v n : STATES}
    (hg : e.globalState = v) (hu : e.updateLocalState n = .ERROR) :
    executeIfValidated e c v n = (.ok .ERROR, [.readGlobal, .updateLocal n]) := by
  rw [executeIfValidated, if_neg (by simp [hg]), if_pos hu]

theorem eiv_exec_error {e : Env} {c : SteeringCommands} {v n : STATES}
    {t : List Action}
    (hg : e.globalState = v) (hu : e.updateLocalState n ≠ .ERROR)
    (hE : executeSteeringCommand e c = (.ok .ERROR, t)) :
    executeIfValidated e c v n =
      (.ok .ERROR, .readGlobal :: .updateLocal n :: t) := by
  rw [executeIfValidated, if_neg (by simp [hg]), if_neg hu, hE]

theorem eiv_exec_exn {e : Env} {c : SteeringCommands} {v n : STATES}
    {t : List Action}
    (hg : e.globalState = v) (hu : e.updateLocalState n ≠ .ERROR)
    (hE : executeSteeringCommand e c = (.exn, t)) :
    executeIfValidated e c v n = (.exn, .readGlobal :: .updateLocal n :: t) := by
  rw [executeIfValidated, if_neg (by simp [hg]), if_neg hu, hE]

theorem eiv_recompute_fail {e : Env} {c : SteeringCommands} {v n : STATES}
    {t : List Action}
    (hg : e.globalState = v) (hu : e.updateLocalState n ≠ .ERROR)
    (hE : executeSteeringCommand e c = (.ok .OK, t))
    (hr : e.updateGlobalStateResult = .ERROR) :
    executeIfValidated e c v n =
      (.ok .ERROR, .readGlobal :: .updateLocal n :: (t ++ [.recomputeGlobal])) := by
  simp [executeIfValidated, hg, hu, hE, hr]

theorem eiv_all_ok {e : Env} {c : SteeringCommands} {v n : STATES}
    {t : List Action}
    (hg : e.globalState = v) (hu : e.updateLocalState n ≠ .ERROR)
    (hE : executeSteeringCommand e c = (.ok .OK, t))
    (hr : e.updateGlobalStateResult ≠ .ERROR) :
    executeIfValidated e c v n =
      (.ok .OK, .readGlobal :: .updateLocal n :: (t ++ [.recomputeGlobal])) := by
  simp [executeIfValidated, hg, hu, hE, hr]

/-- On an `OK` result the trace of `__execute_if_validated` is exactly
the four-step sequence. -/
theorem executeIfValidated_ok_trace (e : Env) (c : SteeringCommands)
    (v n : STATES) (h : (executeIfValidated e c v n).1 = .ok .OK) :
    (executeIfValidated e c v n).2 =
      [.readGlobal, .updateLocal n, .send (.cmd c), .recv, .recomputeGlobal] := by
  by_cases hg : e.globalState = v
  · by_cases hu : e.updateLocalState n = .ERROR
    · rw [eiv_update_fail c hg hu] at h; cases h
    · rcases hE : executeSteeringCommand e c with ⟨r, t⟩
      cases r with
      | exn => rw [eiv_exec_exn hg hu hE] at h; cases h
      | ok rr =>
        cases rr with
        | ERROR => rw [eiv_exec_error hg hu hE] at h; cases h
        | OK =>
          by_cases hr : e.updateGlobalStateResult = .ERROR
          · rw [eiv_recompute_fail hg hu hE hr] at h; cases h
          · rw [eiv_all_ok hg hu hE hr]
            have ht : t = [.send (.cmd c), .recv] := by
              have := executeSteeringCommand_ok_trace e c (by rw [hE])
              rw [hE] at this
              exact this
            rw [ht]
            rfl
  · rw [eiv_precondition_fail c n hg] at h; cases h

/-! ### Claim theorems -/

/-- Claim C1: for every steering command (INIT, START, END), if the
current aggregated global state does not equal the command's required
`valid_state`, the command returns ERROR and nothing is mutated: the
orchestrator's local state in the registry is not updated and no command
is broadcast on the Command-and-Control channel. -/
theorem C1_precondition_mismatch_no_side_effects (e : Env)
    (c : SteeringCommands) (h : e.globalState ≠ valid_state c) :
    executeCommand e c = (.ok .ERROR, [.readGlobal]) ∧
    (∀ s, Action.updateLocal s ∉ (executeCommand e c).2) ∧
    (∀ m, Action.send m ∉ (executeCommand e c).2) := by
  have heq : executeCommand e c = (.ok .ERROR, [.readGlobal]) := by
    rw [executeCommand_eq]
    exact eiv_precondition_fail c _ h
  refine ⟨heq, ?_, ?_⟩ <;> intro z <;> rw [heq] <;> simp

theorem C1_witness :
    executeCommand envRunning .INIT = (.ok .ERROR, [.readGlobal]) :=
  (C1_precondition_mismatch_no_side_effects envRunning .INIT (by decide)).1

/-- Claim C2: for every command in flight, if the received response
payload contains `STATE_UPDATE_FATAL`, the command execution emits
exactly one `STATE_UPDATE_FATAL` event on the Command-and-Control
inbound channel (and no `FATAL` event), finalizes health monitoring,
returns ERROR, and does not trigger global-state recomputation. -/
theorem C2_state_update_fatal_response (e : Env) (c : SteeringCommands)
    (rs : List Msg)
    (hg : e.globalState = valid_state c)
    (hu : e.updateLocalState (new_state c) = .OK)
    (hs : e.sendResult (.cmd c) = .OK)
    (hr : e.recvResult = .msgs rs)
    (hf : Msg.ev .STATE_UPDATE_FATAL ∈ rs) :
    executeCommand e c =
      (.ok .ERROR,
        [.readGlobal, .updateLocal (new_state c), .send (.cmd c), .recv,
         .send (.ev .STATE_UPDATE_FATAL), .finalizeMonitoring]) ∧
    (executeCommand e c).2.count (.send (.ev .STATE_UPDATE_FATAL)) = 1 ∧
    (executeCommand e c).2.count (.send (.ev .FATAL)) = 0 ∧
    Action.finalizeMonitoring ∈ (executeCommand e c).2 ∧
    Action.recomputeGlobal ∉ (executeCommand e c).2 := by
  have hp : processResponses rs c =
      (.ok .err, [.send (.ev .STATE_UPDATE_FATAL), .finalizeMonitoring]) := by
    simp [processResponses, hf]
  have hu' : e.updateLocalState (new_state c) ≠ .ERROR := by
    rw [hu]; intro hcon; cases hcon
  have hs' : e.sendResult (.cmd c) ≠ .ERROR := by
    rw [hs]; intro hcon; cases hcon
  have hE := ess_proc_err hs' hr hp rfl
  have heq : executeCommand e c =
      (.ok .ERROR,
        [.readGlobal, .updateLocal (new_state c), .send (.cmd c), .recv,
         .send (.ev .STATE_UPDATE_FATAL), .finalizeMonitoring]) := by
    rw [executeCommand_eq, eiv_exec_error hg hu' hE]
  refine ⟨heq, ?_, ?_, ?_, ?_⟩ <;> rw [heq] <;> cases c <;> decide

theorem C2_witness :
    executeCommand envFatalResp .INIT =
      (.ok .ERROR,
        [.readGlobal, .updateLocal .SYNCHRONIZING, .send (.cmd .INIT), .recv,
         .send (.ev .STATE_UPDATE_FATAL), .finalizeMonitoring]) :=
  (C2_state_update_fatal_response envFatalResp .INIT [.ev .STATE_UPDATE_FATAL]
    rfl rfl rfl rfl (by decide)).1

/-- Claim C6: for every steering command, if the send on the
Command-and-Control inbound channel returns ERROR, the orchestrator does
not attempt to receive a response, does not process responses, does not
trigger global-state recomputation, and the command returns ERROR. -/
theorem C6_send_failure_aborts (e : Env) (c : SteeringCommands)
    (hg : e.globalState = valid_state c)
    (hu : e.updateLocalState (new_state c) ≠ .ERROR)
    (hs : e.sendResult (.cmd c) = .ERROR) :
    executeCommand e c =
      (.ok .ERROR, [.readGlobal, .updateLocal (new_state c), .send (.cmd c)]) ∧
    Action.recv ∉ (executeCommand e c).2 ∧
    Action.recomputeGlobal ∉ (executeCommand e c).2 := by
  have heq : executeCommand e c =
      (.ok .ERROR, [.readGlobal, .updateLocal (new_state c), .send (.cmd c)]) := by
    rw [executeCommand_eq, eiv_exec_error hg hu (ess_send_fail hs)]
  refine ⟨heq, ?_, ?_⟩ <;> rw [heq] <;> simp

theorem C6_witness :
    executeCommand envSendFail .INIT =
      (.ok .ERROR, [.readGlobal, .updateLocal .SYNCHRONIZING, .send (.cmd .INIT)]) :=
  (C6_send_failure_aborts envSendFail .INIT rfl (by decide) rfl).1

/-- Claim C7: whenever `EVENT.FATAL` is received on the orchestrator's
inbound channel, the handler returns ERROR immediately — its trace is
empty, so it neither reads the global state nor updates the local state
nor broadcasts any steering command — and the loop then runs the fatal
cascade (broadcast `EVENT.FATAL`, finalize monitoring, return ERROR). -/
theorem C7_fatal_event_immediate_error (e : Env) (rest : List (Env × Msg)) :
    handleFatalEvent = ((.ok .ERROR : Res Response), ([] : List Action)) ∧
    loop ((e, .ev .FATAL) :: rest) =
      (.returned .ERROR, [.recvCommand, .send (.ev .FATAL), .finalizeMonitoring]) :=
  ⟨rfl, rfl⟩

/-- Claim C3: for every non-empty list of step-size records returned on
INIT, the aggregated result equals the minimum `min_delay` over all
records (a single-element list returns its element); for the empty list
the operation raises (Python's `min([])` raises `ValueError`) rather
than silently returning an arbitrary value. -/
theorem C3_minimum_step_size (pds : List (Nat × ℚ)) :
    (pds ≠ [] →
      ∃ m, findMinimumStepSize (stepRecords pds) = .ok m ∧
        processResponses (stepRecords pds) .INIT = (.ok (.minStep m), []) ∧
        m ∈ pds.map Prod.snd ∧ ∀ d ∈ pds.map Prod.snd, m ≤ d) ∧
    (∀ p : Nat × ℚ, findMinimumStepSize (stepRecords [p]) = .ok p.2) ∧
    findMinimumStepSize (stepRecords []) = .exn := by
  refine ⟨?_, fun p => rfl, rfl⟩
  intro hne
  cases pds with
  | nil => exact absurd rfl hne
  | cons p ps =>
    have hext := extractDelays_stepRecords (p :: ps)
    have hfm : findMinimumStepSize (stepRecords (p :: ps)) =
        .ok ((ps.map Prod.snd).foldl min p.2) := by
      simp [findMinimumStepSize, hext, List.min?]
    have hspec := min?_spec
      (show ((p :: ps).map Prod.snd).min? =
        some ((ps.map Prod.snd).foldl min p.2) from rfl)
    refine ⟨(ps.map Prod.snd).foldl min p.2, hfm, ?_, hspec.1, hspec.2⟩
    simp [processResponses, stepRecords_no_fatal (p :: ps), hfm]

theorem C3_witness :
    (∃ m, findMinimumStepSize (stepRecords [(1, 3), (2, 2)]) = .ok m ∧
        processResponses (stepRecords [(1, 3), (2, 2)]) .INIT =
          (.ok (.minStep m), []) ∧
        m ∈ ([(1, 3), (2, 2)] : List (Nat × ℚ)).map Prod.snd ∧
        ∀ d ∈ ([(1, 3), (2, 2)] : List (Nat × ℚ)).map Prod.snd, m ≤ d) ∧
    findMinimumStepSize (stepRecords []) = .exn :=
  ⟨(C3_minimum_step_size [(1, 3), (2, 2)]).1 (by decide),
   (C3_minimum_step_size []).2.2⟩

/-- Claim C4: every steering command performs exactly the ordered
sequence precondition-check, local-state commit, broadcast with response
processing, global-state recomputation; the commit happens before the
broadcast, OK is returned exactly when all four steps succeed, and any
ERROR short-circuits the remaining steps. -/
theorem C4_command_sequence (e : Env) (c : SteeringCommands) :
    ((executeCommand e c).1 = .ok .OK ↔
      (e.globalState = valid_state c ∧
       e.updateLocalState (new_state c) ≠ .ERROR ∧
       (executeSteeringCommand e c).1 = .ok .OK ∧
       e.updateGlobalStateResult ≠ .ERROR)) ∧
    ((∃ m, Action.send m ∈ (executeCommand e c).2) →
      ∃ t, (executeCommand e c).2 =
        .readGlobal :: .updateLocal (new_state c) :: t) ∧
    (e.globalState ≠ valid_state c →
      executeCommand e c = (.ok .ERROR, [.readGlobal])) ∧
    (e.globalState = valid_state c →
      e.updateLocalState (new_state c) = .ERROR →
      executeCommand e c =
        (.ok .ERROR, [.readGlobal, .updateLocal (new_state c)])) ∧
    ((executeSteeringCommand e c).1 = .ok .ERROR →
      (executeCommand e c).1 = .ok .ERROR ∧
      Action.recomputeGlobal ∉ (executeCommand e c).2) ∧
    ((executeCommand e c).1 = .ok .OK →
      (executeCommand e c).2 =
        [.readGlobal, .updateLocal (new_state c), .send (.cmd c), .recv,
         .recomputeGlobal]) := by
  rw [executeCommand_eq]
  by_cases hg : e.globalState = valid_state c
  · by_cases hu : e.updateLocalState (new_state c) = .ERROR
    · rw [eiv_update_fail c hg hu]
      simp [hg, hu]
    · rcases hE : executeSteeringCommand e c with ⟨r, t⟩
      cases r with
      | exn =>
        rw [eiv_exec_exn hg hu hE]
        simp [hg, hu, hE]
      | ok rr =>
        cases rr with
        | ERROR =>
          have hrec : Action.recomputeGlobal ∉ t := by
            have hmem := recomputeGlobal_not_mem_execSteer e c
            rw [hE] at hmem
            exact hmem
          rw [eiv_exec_error hg hu hE]
          simp [hg, hu, hE, hrec]
        | OK =>
          by_cases hgr : e.updateGlobalStateResult = .ERROR
          · rw [eiv_recompute_fail hg hu hE hgr]
            simp [hg, hu, hE, hgr]
          · have ht : t = [.send (.cmd c), .recv] := by
              have := executeSteeringCommand_ok_trace e c (by rw [hE])
              rw [hE] at this
              exact this
            rw [eiv_all_ok hg hu hE hgr]
            simp [hg, hu, hE, hgr, ht]
  · rw [eiv_precondition_fail c (new_state c) hg]
    simp [hg]

theorem C4_witness : (executeCommand envReady .INIT).1 = .ok .OK :=
  (C4_command_sequence envReady .INIT).1.mpr
    ⟨rfl, by decide, by decide, by decide⟩

/-- Claim C5: a successful execution of END makes the main loop return
OK immediately: the remaining schedule is never consumed, exactly one
command was received, and on this success path health monitoring is not
finalized. -/
theorem C5_end_concludes_loop (e : Env) (rest : List (Env × Msg))
    (h : (executeEndCommand e).1 = .ok .OK) :
    loop ((e, .cmd .END) :: rest) =
      (.returned .OK, .recvCommand :: (executeEndCommand e).2) ∧
    Action.finalizeMonitoring ∉ (executeEndCommand e).2 ∧
    (loop ((e, .cmd .END) :: rest)).2.count .recvCommand = 1 := by
  have htr : (executeEndCommand e).2 =
      [.readGlobal, .updateLocal .TERMINATED, .send (.cmd .END), .recv,
       .recomputeGlobal] :=
    executeIfValidated_ok_trace e .END .RUNNING .TERMINATED h
  have hloop : loop ((e, .cmd .END) :: rest) =
      (.returned .OK, .recvCommand :: (executeEndCommand e).2) := by
    rcases hE : executeEndCommand e with ⟨r, t⟩
    rw [hE] at h
    simp only at h
    subst h
    simp [loop, dispatch, hE]
  refine ⟨hloop, ?_, ?_⟩
  · rw [htr]; decide
  · rw [hloop]
    simp only
    rw [htr]
    decide

theorem C5_witness :
    loop [(envRunning, .cmd .END)] =
      (.returned .OK,
        [.recvCommand, .readGlobal, .updateLocal .TERMINATED,
         .send (.cmd .END), .recv, .recomputeGlobal]) := by
  have h := (C5_end_concludes_loop envRunning [] (by decide)).1
  exact h.trans (by decide)

/-- Claim C8 counterexample: a bootstrap in which registration succeeds
but the bootstrap global-state recomputation reports ERROR.  The claim
says a failing bootstrap step returns ERROR and aborts before the
command loop; in the code the recomputation's result is discarded, so
setup returns OK and the loop is entered (a command is received). -/
theorem C8_bootstrap_counterexample :
    seRecomputeFail.updateGlobalStateResult = .ERROR ∧
    setUpRuntime seRecomputeFail =
      (.ok .OK,
        [.register, .setRegisteredFlag, .findById, .findAllByCategory,
         .recomputeGlobal, .startHealthMonitoring, .startAlarmMonitoring]) ∧
    (run seRecomputeFail [(envReady, .cmd .INIT)]).2.count .recvCommand = 1 := by
  refine ⟨rfl, rfl, ?_⟩
  decide

/-- Claim C8 (amended): bootstrap returns ERROR and aborts before the
command loop exactly on registration failure; the bootstrap
global-state recomputation's result is ignored, so with a registered
Command-and-Control entry setup returns OK regardless of that
result. -/
theorem C8_bootstrap_amended (se : SetupEnv) (incoming : List (Env × Msg)) :
    (se.registerResult = .ERROR →
      setUpRuntime se = (.ok .ERROR, [.register, .raiseSigterm]) ∧
      run se incoming = (.returned .ERROR, [.register, .raiseSigterm]) ∧
      Action.recvCommand ∉ (run se incoming).2) ∧
    (se.registerResult = .OK → 0 < se.ccEntryCount →
      (setUpRuntime se).1 = .ok .OK) := by
  constructor
  · intro h
    have hreg : registerWithRegistry se = (.ERROR, [.register, .raiseSigterm]) := by
      simp [registerWithRegistry, h]
    have hsetup : setUpRuntime se = (.ok .ERROR, [.register, .raiseSigterm]) := by
      simp [setUpRuntime, hreg]
    have hrun : run se incoming = (.returned .ERROR, [.register, .raiseSigterm]) := by
      simp [run, hsetup]
    refine ⟨hsetup, hrun, ?_⟩
    rw [hrun]
    decide
  · intro h hcc
    have hreg : registerWithRegistry se =
        (.OK, [.register, .setRegisteredFlag, .findById]) := by
      simp [registerWithRegistry, h]
    rcases hn : se.ccEntryCount with _ | k
    · rw [hn] at hcc; cases hcc
    · simp [setUpRuntime, hreg, hn]

theorem C8_witness :
    run seRegFail [(envReady, .cmd .INIT)] =
      (.returned .ERROR, [.register, .raiseSigterm]) ∧
    (setUpRuntime seRecomputeFail).1 = .ok .OK :=
  ⟨((C8_bootstrap_amended seRegFail [(envReady, .cmd .INIT)]).1 rfl).2.1,
   (C8_bootstrap_amended seRecomputeFail []).2 rfl (by decide)⟩

/-- Claim C9: if registration with the service registry returns ERROR,
the orchestrator raises SIGTERM against itself and returns ERROR, and
never fetches its registry entry, never locates the Command-and-Control
endpoint, and never enters the command loop. -/
theorem C9_registration_failure_terminates (se : SetupEnv)
    (incoming : List (Env × Msg)) (h : se.registerResult = .ERROR) :
    registerWithRegistry se = (.ERROR, [.register, .raiseSigterm]) ∧
    setUpRuntime se = (.ok .ERROR, [.register, .raiseSigterm]) ∧
    run se incoming = (.returned .ERROR, [.register, .raiseSigterm]) ∧
    Action.findById ∉ (run se incoming).2 ∧
    Action.findAllByCategory ∉ (run se incoming).2 ∧
    Action.recvCommand ∉ (run se incoming).2 := by
  have hreg : registerWithRegistry se = (.ERROR, [.register, .raiseSigterm]) := by
    simp [registerWithRegistry, h]
  have hsetup : setUpRuntime se = (.ok .ERROR, [.register, .raiseSigterm]) := by
    simp [setUpRuntime, hreg]
  have hrun : run se incoming = (.returned .ERROR, [.register, .raiseSigterm]) := by
    simp [run, hsetup]
  refine ⟨hreg, hsetup, hrun, ?_, ?_, ?_⟩ <;> rw [hrun] <;> decide

theorem C9_witness :
    registerWithRegistry seRegFail = (.ERROR, [.register, .raiseSigterm]) ∧
    run seRegFail [(envReady, .cmd .START)] =
      (.returned .ERROR, [.register, .raiseSigterm]) :=
  ⟨(C9_registration_failure_terminates seRegFail [] rfl).1,
   (C9_registration_failure_terminates seRegFail [(envReady, .cmd .START)]
      rfl).2.2.1⟩

theorem dispatch_isSome_of_handled (e : Env) {m : Msg}
    (h : handledMsg m = true) : ∃ a, dispatch e m = some a := by
  cases m with
  | ev ev' =>
    cases ev' with
    | FATAL => exact ⟨_, rfl⟩
    | STATE_UPDATE_FATAL => simp [handledMsg] at h
  | cmd c => cases c <;> exact ⟨_, rfl⟩
  | resp r => simp [handledMsg] at h
  | record p d => simp [handledMsg] at h

theorem loop_no_keyError (incoming : List (Env × Msg))
    (h : ∀ p ∈ incoming, handledMsg p.2 = true) :
    (loop incoming).1 ≠ .keyError := by
  induction incoming with
  | nil => intro hcon; cases hcon
  | cons p rest ih =>
    rcases p with ⟨e, m⟩
    have hm : handledMsg m = true := h _ (List.mem_cons_self _ _)
    obtain ⟨a, ha⟩ := dispatch_isSome_of_handled e hm
    rcases a with ⟨r, t⟩
    cases r with
    | exn => simp [loop, ha]
    | ok rr =>
      by_cases he : rr = .ERROR
      · simp [loop, ha, he]
      · by_cases hend : m = .cmd .END
        · subst hend
          simp [loop, ha, he]
        · have ih' := ih (fun q hq => h q (List.mem_cons_of_mem _ hq))
          simp [loop, ha, he, hend]
          exact ih'

/-- Claim C10: the main loop's dispatch is total exactly on the
four-value vocabulary {`EVENT.FATAL`, INIT, START, END}; any other
inbound message makes the dictionary lookup fail, so the loop ends in
the unhandled-lookup-failure outcome instead of an OK/ERROR result; and
if every received message is in the vocabulary that outcome is
unreachable. -/
theorem C10_dispatch_vocabulary (e : Env) (m : Msg)
    (rest incoming : List (Env × Msg)) :
    ((dispatch e m).isNone ↔ handledMsg m = false) ∧
    (handledMsg m = false →
      loop ((e, m) :: rest) = (.keyError, [.recvCommand])) ∧
    ((∀ p ∈ incoming, handledMsg p.2 = true) →
      (loop incoming).1 ≠ .keyError) := by
  refine ⟨?_, ?_, loop_no_keyError incoming⟩
  · cases m with
    | ev ev' => cases ev' <;> simp [dispatch, handledMsg]
    | cmd c => cases c <;> simp [dispatch, handledMsg]
    | resp r => simp [dispatch, handledMsg]
    | record p d => simp [dispatch, handledMsg]
  · intro h
    have hnone : dispatch e m = none := by
      cases m with
      | ev ev' =>
        cases ev' with
        | FATAL => simp [handledMsg] at h
        | STATE_UPDATE_FATAL => rfl
      | cmd c => cases c <;> simp [handledMsg] at h
      | resp r => rfl
      | record p d => rfl
    simp [loop, hnone]

theorem C10_witness :
    loop [(envReady, .resp .OK)] = (.keyError, [.recvCommand]) ∧
    (loop [(envReady, .cmd .INIT)]).1 ≠ .keyError :=
  ⟨(C10_dispatch_vocabulary envReady (.resp .OK) [] []).2.1 rfl,
   (C10_dispatch_vocabulary envReady (.cmd .INIT) []
      [(envReady, .cmd .INIT)]).2.2 (by decide)⟩

end Orchestrator
